import Mathlib

/-!
Verification of the sqrl convenience layer over sqlite (olivesnake/sqrl).

Shallow embedding of the repository's decision logic: the read-path result
shaper (`SQRL.fetch`, `SQRL.select` in src/sqrl/core.py), the `LIMIT 1`
regex override inside `fetch`, the type inference (`detect_type_csv`,
`detect_type_json` in src/sqrl/utils.py), the bulk loaders (`from_df`,
`create_table_from_json`), the transaction wrappers (`execute`,
`executemany`, `executescript`) and the vector-capability guard
(`__init__`, `k_nearest_embeddings`, `add_embedding`, `create_embedding_db`).

The sqlite engine itself is external: engine behaviour enters the model as
an explicit outcome value (rows returned, or an error), and the connection's
transaction discipline is modelled by a small state machine that mirrors
Python sqlite3 with `isolation_level=None` (the value `SQRL.__init__` passes
to `sqlite3.connect`): no implicit transaction is ever opened, a statement
executed outside an explicit transaction commits immediately, and
`Connection.commit`/`Connection.rollback` act only on an explicitly opened
transaction.
-/

namespace Sqrl

/-- SQLite column values as surfaced to Python. -/
inductive Value where
  | null
  | int (n : Int)
  | text (s : String)
  | blob (b : List Nat)
deriving DecidableEq

/-- Shape of the Python object returned by the read path `SQRL.fetch`
(src/sqrl/core.py lines 354-377): `None`, a bare scalar (`row[0]`), a tuple
row, a dict row, the literal empty list `[]`, or a list of scalars / tuple
rows / dict rows (the three list-producing branches of the code always
produce them from a nonempty row set). -/
inductive PyObj where
  | none
  | val (v : Value)
  | tup (r : List Value)
  | dictRow (r : List (String × Value))
  | emptyList
  | listVal (vs : List Value)
  | listTup (rs : List (List Value))
  | listDict (rs : List (List (String × Value)))
deriving DecidableEq

/-! ### The `LIMIT 1` override regex

`SQRL.fetch` line 356:
`one = one or re.match(r"^.+ LIMIT 1(?=(\s|;)).*", sql, flags=re.IGNORECASE)`.

`re.match` anchors at the start of the string; `.` does not match a newline
(no `DOTALL`), so `.+` requires at least one character before the literal
` LIMIT 1` and no newline anywhere before it; the lookahead requires the
character right after the literal to be a whitespace character or `;`;
the trailing `.*` can always match the empty string. `IGNORECASE` makes the
letters case-insensitive. -/

/-- ASCII lower-casing, the effect of `re.IGNORECASE` on the ASCII letters of
the pattern. -/
def lowerAscii (c : Char) : Char :=
  if c.toNat ≥ 65 && c.toNat ≤ 90 then Char.ofNat (c.toNat + 32) else c

/-- The literal ` LIMIT 1` of the pattern, lower-cased. -/
def limit1Lit : List Char := [' ', 'l', 'i', 'm', 'i', 't', ' ', '1']

/-- Python's `\s` on ASCII input: space, tab, newline, carriage return,
vertical tab, form feed. -/
def isPySpace (c : Char) : Bool :=
  c == ' ' || c == '\t' || c == '\n' || c == '\r' || c == '\x0b' || c == '\x0c'

/-- The character demanded by the lookahead `(?=(\s|;))`. -/
def followOk (t : List Char) : Bool :=
  match t with
  | [] => false
  | c :: _ => isPySpace c || c == ';'

/-- Does ` LIMIT 1` (case-insensitively) start here, followed by a
whitespace character or a semicolon? -/
def limit1At (t : List Char) : Bool :=
  ((t.take 8).map lowerAscii == limit1Lit) && followOk (t.drop 8)

/-- Scan for a match position; a newline stops the scan because the `.+`
prefix of the pattern cannot cross it. -/
def scanTail : List Char → Bool
  | [] => false
  | c :: rest => if c == '\n' then false else (limit1At (c :: rest) || scanTail rest)

/-- Truth value of `re.match(r"^.+ LIMIT 1(?=(\s|;)).*", sql, re.IGNORECASE)`:
the first character is consumed by `.+` (so the literal cannot start at
position 0) and must not be a newline. -/
def limitOneMatch : List Char → Bool
  | [] => false
  | c :: rest => (c != '\n') && scanTail rest

/-! ### The result shaper of `SQRL.fetch` -/

/-- Outcome of running the statement on the external engine: an
`sqlite3.Error`, or the (already materialised) rows together with the
column names used for `dict(row)` conversion. -/
inductive EngineResult where
  | err
  | ok (cols : List String) (rows : List (List Value))
deriving DecidableEq

/-- The shaping logic of `SQRL.fetch` (src/sqrl/core.py lines 363-374) on a
row set the engine returned: zero rows give `None` (one-mode) or `[]`;
one-mode returns the first row, collapsed to `row[0]` when it has exactly
one column and tuples were requested; list-mode collapses to a list of
`row[0]` values when the first row has exactly one column and tuples were
requested, and otherwise returns the rows (as dicts when requested). -/
def fetchShape (cols : List String) (rows : List (List Value)) (one asDict : Bool) : PyObj :=
  match rows with
  | [] => if one then PyObj.none else PyObj.emptyList
  | r :: rest =>
    if one then
      if asDict then PyObj.dictRow (cols.zip r)
      else if r.length = 1 then PyObj.val (r.headD Value.null)
      else PyObj.tup r
    else
      if asDict then PyObj.listDict ((r :: rest).map (fun x => cols.zip x))
      else if r.length = 1 then PyObj.listVal ((r :: rest).map (fun x => x.headD Value.null))
      else PyObj.listTup (r :: rest)

/-- `SQRL.fetch` (src/sqrl/core.py lines 337-377): the `one` flag is forced
on when the `LIMIT 1` regex matches the statement text; an `sqlite3.Error`
from the engine is swallowed and turned into `None`; otherwise the rows are
shaped by `fetchShape`. Bind parameters are consumed by the engine and do
not influence shaping. -/
def fetch (sql : String) (one asDict : Bool) (engine : EngineResult) : PyObj :=
  match engine with
  | EngineResult.err => PyObj.none
  | EngineResult.ok cols rows => fetchShape cols rows (one || limitOneMatch sql.toList) asDict

/-! ### The select statement builder (`SQRL.select`, lines 122-173) -/

/-- Column list fragment: `','.join(columns)` when the caller passed a
non-empty list (Python truthiness), else `*`. -/
def colListStr (columns : Option (List String)) : String :=
  match columns with
  | Option.some (c :: cs) => String.intercalate "," (c :: cs)
  | _ => "*"

/-- An optional clause fragment: Python renders `''` when the value is
`None` or the empty string (falsy), else the clause text after its
keyword. -/
def optChunk (kw : String) (o : Option String) : String :=
  match o with
  | Option.none => ""
  | Option.some x => if x = "" then "" else kw ++ x

/-- The `ORDER BY` fragment with its `ASC`/`DESC` direction. -/
def orderByChunk (o : Option String) (asc : Bool) : String :=
  match o with
  | Option.none => ""
  | Option.some x =>
    if x = "" then "" else " ORDER BY " ++ x ++ " " ++ (if asc then "ASC" else "DESC")

/-- The statement text `SQRL.select` assembles (src/sqrl/core.py lines
156-170): SELECT-list, FROM, WHERE, GROUP BY, HAVING, ORDER BY, then a
LIMIT/OFFSET fragment that always renders. -/
def buildSelectStmt (table_name : String) (columns : Option (List String))
    (distinct : Bool) (where_ group_by having : Option String)
    (order_by : Option String) (asc : Bool) (limit offset : Int) : String :=
  let core := "SELECT " ++ (if distinct then "DISTINCT " else "") ++
    colListStr columns ++ " FROM " ++ table_name
  core ++ optChunk " WHERE " where_ ++ optChunk " GROUP BY " group_by ++
    optChunk " HAVING " having ++ orderByChunk order_by asc ++
    " LIMIT " ++ toString limit ++ " OFFSET " ++ toString offset ++ ";"

/-- `SQRL.select` (src/sqrl/core.py lines 122-173): builds the statement and
delegates to `fetch` with `one = (limit == 1)`. The `fetchN` argument is the
method's `fetch` parameter; the source accepts and documents it but never
reads it, which this embedding mirrors. -/
def select (table_name : String) (columns : Option (List String)) (distinct : Bool)
    (where_ : Option String) (order_by : Option String) (asc : Bool)
    (group_by : Option String) (having : Option String)
    (limit : Int) (offset : Int) (fetchN : Option Nat) (return_as_dict : Bool)
    (engine : EngineResult) : PyObj :=
  let stmt := buildSelectStmt table_name columns distinct where_ group_by having
    order_by asc limit offset
  fetch stmt (limit == 1) return_as_dict engine

/-! ### The language of the `LIMIT 1` regex -/

/-- The language of the regex, stated as a decomposition: the text splits
into a nonempty newline-free prefix, eight literal characters lower-casing
to ` limit 1`, and a following whitespace-or-semicolon character. -/
def limitOnePattern (s : List Char) : Prop :=
  ∃ p m c q, s = p ++ m ++ c :: q ∧ p ≠ [] ∧ '\n' ∉ p ∧
    m.map lowerAscii = limit1Lit ∧ (isPySpace c = true ∨ c = ';')

lemma limit1At_iff (t : List Char) :
    limit1At t = true ↔
      ∃ m c q, t = m ++ c :: q ∧ m.map lowerAscii = limit1Lit ∧
        (isPySpace c = true ∨ c = ';') := by
  constructor
  · intro h
    rw [limit1At, Bool.and_eq_true, beq_iff_eq] at h
    obtain ⟨h1, h2⟩ := h
    cases hd : t.drop 8 with
    | nil => rw [hd] at h2; simp [followOk] at h2
    | cons c q =>
      rw [hd] at h2
      refine ⟨t.take 8, c, q, ?_, h1, ?_⟩
      · rw [← hd]; exact (List.take_append_drop 8 t).symm
      · simpa [followOk] using h2
  · rintro ⟨m, c, q, rfl, hm, hc⟩
    have hlen : m.length = 8 := by
      have := congrArg List.length hm
      simpa [limit1Lit] using this
    rw [limit1At, Bool.and_eq_true, beq_iff_eq]
    constructor
    · rw [← hlen, List.take_left, hm]
    · rw [← hlen, List.drop_left]
      simpa [followOk] using hc

lemma scanTail_iff (t : List Char) :
    scanTail t = true ↔
      ∃ p m c q, t = p ++ m ++ c :: q ∧ '\n' ∉ p ∧ m.map lowerAscii = limit1Lit ∧
        (isPySpace c = true ∨ c = ';') := by
  induction t with
  | nil =>
    constructor
    · intro h; simp [scanTail] at h
    · rintro ⟨p, m, c, q, h, -, -, -⟩
      simp at h
  | cons a rest ih =>
    by_cases ha : a = '\n'
    · subst ha
      constructor
      · intro h; simp [scanTail] at h
      · rintro ⟨p, m, c, q, h, hp, hm, -⟩
        cases p with
        | nil =>
          have hlen : m.length = 8 := by
            have := congrArg List.length hm
            simpa [limit1Lit] using this
          cases m with
          | nil => simp at hlen
          | cons m0 m' =>
            simp only [List.nil_append, List.cons_append, List.cons.injEq] at h
            have hm0 : lowerAscii m0 = ' ' := by
              simpa [limit1Lit] using congrArg (fun l => l.headD ' ') hm
            rw [← h.1] at hm0
            exact absurd hm0 (by decide)
        | cons p0 p' =>
          simp only [List.cons_append, List.cons.injEq] at h
          exact absurd (by rw [h.1]; exact List.mem_cons_self p0 p' : '\n' ∈ p0 :: p') hp
    · have hne : (a == '\n') = false := by simpa using ha
      simp only [scanTail, hne, Bool.false_eq_true, if_false, Bool.or_eq_true]
      constructor
      · rintro (h | h)
        · obtain ⟨m, c, q, hdec, hm, hc⟩ := (limit1At_iff _).mp h
          exact ⟨[], m, c, q, by simpa using hdec, by simp, hm, hc⟩
        · obtain ⟨p, m, c, q, hdec, hp, hm, hc⟩ := ih.mp h
          refine ⟨a :: p, m, c, q, by simp [hdec], ?_, hm, hc⟩
          simp only [List.mem_cons, not_or]
          exact ⟨fun hh => ha hh.symm, hp⟩
      · rintro ⟨p, m, c, q, hdec, hp, hm, hc⟩
        cases p with
        | nil =>
          exact Or.inl ((limit1At_iff _).mpr ⟨m, c, q, by simpa using hdec, hm, hc⟩)
        | cons p0 p' =>
          simp only [List.cons_append, List.cons.injEq] at hdec
          refine Or.inr (ih.mpr ⟨p', m, c, q, hdec.2, ?_, hm, hc⟩)
          intro hmem
          exact hp (List.mem_cons_of_mem _ hmem)

lemma limitOneMatch_iff (s : List Char) :
    limitOneMatch s = true ↔ limitOnePattern s := by
  cases s with
  | nil =>
    constructor
    · intro h; simp [limitOneMatch] at h
    · rintro ⟨p, m, c, q, h, -, -, -, -⟩
      simp at h
  | cons a rest =>
    simp only [limitOneMatch, Bool.and_eq_true, bne_iff_ne, ne_eq, limitOnePattern]
    rw [scanTail_iff]
    constructor
    · rintro ⟨ha, p, m, c, q, hdec, hp, hm, hc⟩
      refine ⟨a :: p, m, c, q, by simp [hdec], by simp, ?_, hm, hc⟩
      simp only [List.mem_cons, not_or]
      exact ⟨fun h => ha h.symm, hp⟩
    · rintro ⟨p, m, c, q, hdec, hpne, hp, hm, hc⟩
      cases p with
      | nil => exact absurd rfl hpne
      | cons p0 p' =>
        simp only [List.cons_append, List.cons.injEq] at hdec
        simp only [List.mem_cons, not_or] at hp
        refine ⟨?_, p', m, c, q, hdec.2, hp.2, hm, hc⟩
        rw [hdec.1]
        exact fun h => hp.1 h.symm

/-! ### Claim theorems: read-path shaping -/

/-- C2: `SQRL.select` is documented to fetch at most `fetch=n` rows, but the
source never reads the `fetch` parameter: with `fetch=1` (and the default
`limit=-1`) a three-row result comes back whole, as a three-element list. -/
theorem select_ignores_fetch_param :
    Sqrl.select "t" Option.none false Option.none Option.none true Option.none
        Option.none (-1) 0 (Option.some 1) false
        (EngineResult.ok ["a"] [[Value.int 1], [Value.int 2], [Value.int 3]]) =
      PyObj.listVal [Value.int 1, Value.int 2, Value.int 3] ∧
    ([Value.int 1, Value.int 2, Value.int 3].length ≤ 1) = False := by
  constructor
  · decide
  · simp

/-- C3 counterexample: with `one=false` an engine error yields `None` while a
zero-row success yields the empty list, and the two are different Python
values — a caller can distinguish them. -/
theorem fetch_error_vs_empty_distinguishable :
    fetch "SELECT a FROM t;" false false EngineResult.err = PyObj.none ∧
    fetch "SELECT a FROM t;" false false (EngineResult.ok ["a"] []) = PyObj.emptyList ∧
    PyObj.none ≠ PyObj.emptyList := by
  refine ⟨by decide, by decide, by decide⟩

/-- C3 amended: an engine error on the read path always returns `None`; a
zero-row success returns `None` exactly when one-mode is in effect (the
caller's `one` or the `LIMIT 1` override) and the empty list otherwise, so
error and zero-rows coincide precisely in one-mode. `select` inherits the
error behaviour from `fetch`. -/
theorem fetch_error_absent_result (sql : String) (one asDict : Bool)
    (cols : List String) (tn : String) (lim off : Int) (fetchN : Option Nat) :
    fetch sql one asDict EngineResult.err = PyObj.none ∧
    fetch sql one asDict (EngineResult.ok cols []) =
      (if (one || limitOneMatch sql.toList) then PyObj.none else PyObj.emptyList) ∧
    Sqrl.select tn Option.none false Option.none Option.none true Option.none
        Option.none lim off fetchN asDict EngineResult.err = PyObj.none := by
  refine ⟨rfl, ?_, rfl⟩
  rw [fetch]
  cases one || limitOneMatch sql.toList <;> simp [fetchShape]

/-- C7: in mode ALL on a nonempty row set whose rows all have exactly one
column, raw-row shaping collapses to the list of bare scalars, in the same
length and order as the rows; with `asMap` requested no collapse happens and
every row comes back as a full keyed map. -/
theorem fetch_all_single_column_shapes (cols : List String) (v : Value)
    (vs : List Value) :
    fetchShape cols ([v] :: vs.map (fun x => [x])) false false =
      PyObj.listVal (v :: vs) ∧
    (v :: vs).length = ([v] :: vs.map (fun x => [x])).length ∧
    fetchShape cols ([v] :: vs.map (fun x => [x])) false true =
      PyObj.listDict ((v :: vs).map (fun x => cols.zip [x])) := by
  refine ⟨?_, by simp, ?_⟩
  · simp [fetchShape, List.map_map, Function.comp_def]
  · simp [fetchShape, List.map_map, Function.comp_def]

/-- C8: in mode ONE, empty input returns the absent sentinel `None`, which
differs from an empty row; nonempty input returns exactly the first row's
shaped value — a keyed map under `asMap`, the bare scalar for a
single-column row without `asMap`, the full row otherwise — and the result
does not depend on any row beyond the first. -/
theorem fetch_one_mode_shape (cols : List String) (asDict : Bool)
    (r : List Value) (rest rest' : List (List Value)) (v w : Value)
    (ws : List Value) :
    fetchShape cols [] true asDict = PyObj.none ∧
    PyObj.none ≠ PyObj.tup [] ∧
    fetchShape cols (r :: rest) true asDict = fetchShape cols (r :: rest') true asDict ∧
    fetchShape cols (r :: rest) true true = PyObj.dictRow (cols.zip r) ∧
    fetchShape cols ([v] :: rest) true false = PyObj.val v ∧
    fetchShape cols ((v :: w :: ws) :: rest) true false = PyObj.tup (v :: w :: ws) := by
  refine ⟨by cases asDict <;> simp [fetchShape], by decide, ?_, ?_, ?_, ?_⟩
  · simp [fetchShape]
  · simp [fetchShape]
  · simp [fetchShape]
  · simp [fetchShape]

/-- C10 counterexample: the claim says any SQL containing ` LIMIT 1`
followed by whitespace or a semicolon triggers one-mode, but the regex is
anchored with `.+`, which cannot cross a newline: this statement contains
` LIMIT 1;` (shown by an explicit decomposition) yet `fetch` with
`one=false` returns the full list rather than the one-mode scalar. -/
theorem limit_one_regex_not_contains :
    "x\ny LIMIT 1;".toList =
      ['x', '\n', 'y'] ++ [' ', 'L', 'I', 'M', 'I', 'T', ' ', '1'] ++ [';'] ∧
    [' ', 'L', 'I', 'M', 'I', 'T', ' ', '1'].map lowerAscii = limit1Lit ∧
    (isPySpace ';' = true ∨ ';' = ';') ∧
    limitOneMatch "x\ny LIMIT 1;".toList = false ∧
    fetch "x\ny LIMIT 1;" false false
        (EngineResult.ok ["a"] [[Value.int 1], [Value.int 2]]) =
      PyObj.listVal [Value.int 1, Value.int 2] ∧
    fetch "x\ny LIMIT 1;" true false
        (EngineResult.ok ["a"] [[Value.int 1], [Value.int 2]]) =
      PyObj.val (Value.int 1) ∧
    PyObj.listVal [Value.int 1, Value.int 2] ≠ PyObj.val (Value.int 1) := by
  refine ⟨by decide, by decide, Or.inr rfl, by decide, by decide, by decide, by decide⟩

/-- C10 amended: `fetch` forces one-mode exactly when the statement text
contains ` LIMIT 1` (case-insensitively) followed by a whitespace character
or a semicolon, preceded by at least one character with no newline anywhere
before the occurrence; all other SQL — `LIMIT 10`, `LIMIT -1`, or a
` LIMIT 1` beyond a newline — keeps the caller's `one` flag. -/
theorem fetch_limit_one_override (sql : String) (one asDict : Bool)
    (cols : List String) (rows : List (List Value)) :
    (limitOneMatch sql.toList = true ↔ limitOnePattern sql.toList) ∧
    fetch sql one asDict (EngineResult.ok cols rows) =
      fetchShape cols rows (one || limitOneMatch sql.toList) asDict ∧
    limitOneMatch "SELECT a FROM t LIMIT 10;".toList = false ∧
    limitOneMatch "SELECT a FROM t LIMIT -1;".toList = false ∧
    limitOneMatch "SELECT a FROM t LIMIT 1;".toList = true := by
  exact ⟨limitOneMatch_iff _, rfl, by decide, by decide, by decide⟩

/-! ### Type inference (src/sqrl/utils.py lines 38-65)

`is_int`/`is_real` run `re.match(r"^[0-9]+$", str(x))` and
`re.match(r"^[0-9]+\.[0-9]+$", str(x))`. Both patterns are anchored, and in
Python `$` matches at the end of the string or just before a single
trailing newline, so one final `'\n'` is ignored. For a `bytes` value,
`str(x)` is the repr beginning with `b'`, which can never match either
anchored digit pattern, so bytes always fall through to the
`isinstance(data, bytes)` branch. -/

/-- A value handed to `detect_type_csv`: a CSV field string, or raw bytes. -/
inductive CsvValue where
  | str (s : List Char)
  | bytes (b : List Nat)
deriving DecidableEq

/-- The regex class `[0-9]`. -/
def isAsciiDigit (c : Char) : Bool := '0' ≤ c && c ≤ '9'

/-- Drop the single trailing newline that Python's `$` anchor tolerates. -/
def stripDollarNewline : List Char → List Char
  | [] => []
  | c :: rest => if c = '\n' && rest.isEmpty then [] else c :: stripDollarNewline rest

/-- Truth value of `re.match(r"^[0-9]+$", s)` on a string. -/
def matchesIntPat (s : List Char) : Bool :=
  !(stripDollarNewline s).isEmpty && (stripDollarNewline s).all isAsciiDigit

/-- Exact match of `[0-9]+\.[0-9]+`: a nonempty digit run, a dot, a
nonempty digit run. -/
def digitsDotDigits (t : List Char) : Bool :=
  match t.dropWhile isAsciiDigit with
  | '.' :: b => !(t.takeWhile isAsciiDigit).isEmpty && !b.isEmpty && b.all isAsciiDigit
  | _ => false

/-- Truth value of `re.match(r"^[0-9]+\.[0-9]+$", s)` on a string. -/
def matchesRealPat (s : List Char) : Bool := digitsDotDigits (stripDollarNewline s)

/-- `utils.is_int`: on a string, the anchored digit pattern; on bytes the
`str()` repr begins with `b'` and never matches. -/
def is_int : CsvValue → Bool
  | CsvValue.str s => matchesIntPat s
  | CsvValue.bytes _ => false

/-- `utils.is_real`, analogously. -/
def is_real : CsvValue → Bool
  | CsvValue.str s => matchesRealPat s
  | CsvValue.bytes _ => false

/-- `utils.detect_type_csv` (lines 46-54): `is_int`, then `is_real`, then
the `bytes` check, else `text`. -/
def detect_type_csv (data : CsvValue) : String :=
  if is_int data then "integer"
  else if is_real data then "real"
  else
    match data with
    | CsvValue.bytes _ => "blob"
    | _ => "text"

/-- A Python value coming out of `json.load` (or a dataframe cell), by its
native kind. Python's `bool` is a subclass of `int`, so it takes the
`isinstance(data, int)` branch. -/
inductive JsonValue where
  | jbool (b : Bool)
  | jint (n : Int)
  | jfloat
  | jbytes (b : List Nat)
  | jstr (s : List Char)
  | jnull
deriving DecidableEq

/-- `utils.detect_type_json` (lines 57-65): dispatch on the value's native
kind; strings — numeric-looking or not — fall through to `text`. -/
def detect_type_json : JsonValue → String
  | JsonValue.jbool _ => "integer"
  | JsonValue.jint _ => "integer"
  | JsonValue.jfloat => "real"
  | JsonValue.jbytes _ => "blob"
  | _ => "text"

lemma stripNl_of_not_mem (s : List Char) (h : '\n' ∉ s) :
    stripDollarNewline s = s := by
  induction s with
  | nil => rfl
  | cons c rest ih =>
    simp only [List.mem_cons, not_or] at h
    have hc : ¬c = '\n' := fun hh => h.1 hh.symm
    simp [stripDollarNewline, hc, ih h.2]

lemma stripNl_append_nl (s : List Char) :
    stripDollarNewline (s ++ ['\n']) = s := by
  induction s with
  | nil => rfl
  | cons c rest ih =>
    have hne : (rest ++ ['\n']).isEmpty = false := by
      cases rest <;> rfl
    simp [stripDollarNewline, hne, ih]

lemma stripNl_cases (s : List Char) :
    s = stripDollarNewline s ∨ s = stripDollarNewline s ++ ['\n'] := by
  induction s with
  | nil => exact Or.inl rfl
  | cons c rest ih =>
    by_cases h : c = '\n' ∧ rest = []
    · right
      rw [h.1, h.2]
      rfl
    · have hcond : (c = '\n' && rest.isEmpty) = false := by
        rcases Classical.em (c = '\n') with hc | hc
        · have : rest ≠ [] := fun hr => h ⟨hc, hr⟩
          simp [hc, this]
        · simp [hc]
      rw [stripDollarNewline]
      simp only [hcond, Bool.false_eq_true, if_false]
      rcases ih with ih | ih
      · exact Or.inl (by rw [← ih])
      · exact Or.inr (by rw [List.cons_append, ← ih])

lemma matchesIntPat_iff (s : List Char) :
    matchesIntPat s = true ↔
      ∃ t, t ≠ [] ∧ t.all isAsciiDigit = true ∧ (s = t ∨ s = t ++ ['\n']) := by
  constructor
  · intro h
    rw [matchesIntPat, Bool.and_eq_true] at h
    refine ⟨stripDollarNewline s, ?_, h.2, ?_⟩
    · intro hnil
      rw [hnil] at h
      simp at h
    · exact stripNl_cases s
  · rintro ⟨t, hne, hdig, hcase⟩
    have hmem : '\n' ∉ t := by
      intro hmem
      have := List.all_eq_true.mp hdig _ hmem
      exact absurd this (by decide)
    have hstrip : stripDollarNewline s = t := by
      rcases hcase with rfl | rfl
      · exact stripNl_of_not_mem _ hmem
      · exact stripNl_append_nl _
    rw [matchesIntPat, hstrip, Bool.and_eq_true]
    exact ⟨by simpa using hne, hdig⟩

lemma dropWhile_digits_append (a b2 : List Char)
    (ha : ∀ x ∈ a, isAsciiDigit x = true) :
    (a ++ '.' :: b2).dropWhile isAsciiDigit = '.' :: b2 := by
  have hdot : isAsciiDigit '.' = false := by decide
  induction a with
  | nil => simp [List.dropWhile_cons, hdot]
  | cons x xs ih =>
    have hx := ha x (List.mem_cons_self x xs)
    simp only [List.cons_append, List.dropWhile_cons, hx, if_true]
    exact ih (fun y hy => ha y (List.mem_cons_of_mem x hy))

lemma takeWhile_digits_append (a b2 : List Char)
    (ha : ∀ x ∈ a, isAsciiDigit x = true) :
    (a ++ '.' :: b2).takeWhile isAsciiDigit = a := by
  have hdot : isAsciiDigit '.' = false := by decide
  induction a with
  | nil => simp [List.takeWhile_cons, hdot]
  | cons x xs ih =>
    have hx := ha x (List.mem_cons_self x xs)
    simp only [List.cons_append, List.takeWhile_cons, hx, if_true]
    rw [ih (fun y hy => ha y (List.mem_cons_of_mem x hy))]

lemma digitsDotDigits_iff (t : List Char) :
    digitsDotDigits t = true ↔
      ∃ a b2, a ≠ [] ∧ a.all isAsciiDigit = true ∧ b2 ≠ [] ∧
        b2.all isAsciiDigit = true ∧ t = a ++ '.' :: b2 := by
  constructor
  · intro h
    unfold digitsDotDigits at h
    split at h
    case _ b2 heq =>
      rw [Bool.and_eq_true, Bool.and_eq_true] at h
      refine ⟨t.takeWhile isAsciiDigit, b2, ?_, ?_, ?_, h.2, ?_⟩
      · intro hnil
        rw [hnil] at h
        simp at h
      · exact List.all_eq_true.mpr (fun x hx => List.mem_takeWhile_imp hx)
      · intro hnil
        rw [hnil] at h
        simp at h
      · conv_lhs => rw [← List.takeWhile_append_dropWhile (p := isAsciiDigit) (l := t)]
        rw [heq]
    case _ => exact absurd h (by simp)
  · rintro ⟨a, b2, hane, ha, hbne, hb, rfl⟩
    have ha' := List.all_eq_true.mp ha
    unfold digitsDotDigits
    rw [dropWhile_digits_append a b2 ha']
    simp only [takeWhile_digits_append a b2 ha']
    have h1 : a.isEmpty = false := by simpa using hane
    have h2 : b2.isEmpty = false := by simpa using hbne
    simp [h1, h2, hb]

lemma matchesRealPat_iff (s : List Char) :
    matchesRealPat s = true ↔
      ∃ a b2, a ≠ [] ∧ a.all isAsciiDigit = true ∧ b2 ≠ [] ∧
        b2.all isAsciiDigit = true ∧
        (s = a ++ '.' :: b2 ∨ s = (a ++ '.' :: b2) ++ ['\n']) := by
  rw [matchesRealPat, digitsDotDigits_iff]
  constructor
  · rintro ⟨a, b2, hane, ha, hbne, hb, heq⟩
    refine ⟨a, b2, hane, ha, hbne, hb, ?_⟩
    rcases stripNl_cases s with hc | hc
    · exact Or.inl (by rw [hc, heq])
    · exact Or.inr (by rw [hc, heq])
  · rintro ⟨a, b2, hane, ha, hbne, hb, hcase⟩
    refine ⟨a, b2, hane, ha, hbne, hb, ?_⟩
    have hmem : '\n' ∉ a ++ '.' :: b2 := by
      intro hmem
      rcases List.mem_append.mp hmem with hm | hm
      · exact absurd (List.all_eq_true.mp ha _ hm) (by decide)
      · rcases List.mem_cons.mp hm with hm | hm
        · exact absurd hm (by decide)
        · exact absurd (List.all_eq_true.mp hb _ hm) (by decide)
    rcases hcase with rfl | rfl
    · exact stripNl_of_not_mem _ hmem
    · exact stripNl_append_nl _

lemma real_not_int (s : List Char) (h : matchesRealPat s = true) :
    matchesIntPat s = false := by
  rw [matchesRealPat, digitsDotDigits_iff] at h
  obtain ⟨a, b2, -, -, -, -, heq⟩ := h
  rw [matchesIntPat]
  cases hall : (stripDollarNewline s).all isAsciiDigit
  · simp
  · have : isAsciiDigit '.' = true := by
      refine List.all_eq_true.mp hall '.' ?_
      rw [heq]
      exact List.mem_append.mpr (Or.inr (List.mem_cons_self _ _))
    exact absurd this (by decide)

lemma detect_csv_eq (s : List Char) :
    detect_type_csv (CsvValue.str s) =
      (if matchesIntPat s then "integer"
       else if matchesRealPat s then "real" else "text") := rfl

/-- C9 counterexample: the CSV field `"123\n"` is not a string of only
decimal digits (it ends in a newline, and contains no dot), yet
`detect_type_csv` classifies it as `integer`, because Python's `$` anchor
accepts one trailing newline — the claim's "everything else infers text"
fails here. -/
theorem detect_type_csv_trailing_newline :
    detect_type_csv (CsvValue.str ['1', '2', '3', '\n']) = "integer" ∧
    (['1', '2', '3', '\n'].all isAsciiDigit) = false ∧
    (['1', '2', '3', '\n'].contains '.') = false ∧
    ("integer" : String) ≠ "text" := by
  refine ⟨by decide, by decide, by decide, by decide⟩

/-- C9 amended: CSV-path inference classifies as `integer` exactly the
nonempty digit strings with at most one trailing newline (Python's `$`
accepts it), as `real` exactly the `digits '.' digits` strings with at most
one trailing newline, bytes as `blob`, and everything else — negative
numbers and scientific notation included — as `text`; JSON-path inference
maps native integers to `integer`, floats to `real`, bytes to `blob`, and
any string to `text`. -/
theorem type_inference_rules (s : List Char) (b : List Nat) (n : Int) :
    (detect_type_csv (CsvValue.str s) = "integer" ↔
      ∃ t, t ≠ [] ∧ t.all isAsciiDigit = true ∧ (s = t ∨ s = t ++ ['\n'])) ∧
    (detect_type_csv (CsvValue.str s) = "real" ↔
      ∃ a b2, a ≠ [] ∧ a.all isAsciiDigit = true ∧ b2 ≠ [] ∧
        b2.all isAsciiDigit = true ∧
        (s = a ++ '.' :: b2 ∨ s = (a ++ '.' :: b2) ++ ['\n'])) ∧
    detect_type_csv (CsvValue.bytes b) = "blob" ∧
    (detect_type_csv (CsvValue.str s) = "integer" ∨
      detect_type_csv (CsvValue.str s) = "real" ∨
      detect_type_csv (CsvValue.str s) = "text") ∧
    detect_type_csv (CsvValue.str ['-', '1']) = "text" ∧
    detect_type_csv (CsvValue.str ['1', 'e', '5']) = "text" ∧
    detect_type_json (JsonValue.jint n) = "integer" ∧
    detect_type_json JsonValue.jfloat = "real" ∧
    detect_type_json (JsonValue.jbytes b) = "blob" ∧
    detect_type_json (JsonValue.jstr s) = "text" := by
  refine ⟨?_, ?_, rfl, ?_, by decide, by decide, rfl, rfl, rfl, rfl⟩
  · rw [← matchesIntPat_iff, detect_csv_eq]
    cases hI : matchesIntPat s
    · cases hR : matchesRealPat s <;> simp
    · simp
  · rw [← matchesRealPat_iff, detect_csv_eq]
    cases hR : matchesRealPat s
    · cases hI : matchesIntPat s <;> simp [hR]
    · rw [real_not_int s hR]
      simp
  · rw [detect_csv_eq]
    cases hI : matchesIntPat s
    · cases hR : matchesRealPat s <;> simp
    · simp

/-! ### Bulk loading (`SQRL.from_df` lines 571-601,
`SQRL.create_table_from_json` lines 629-663)

The engine enters the model as oracles: `createOk` is the outcome of the
CREATE TABLE statement, and `insertResults` gives, per row, the outcome the
row's `insert` call would have. Each `insert` wraps its statement in its own
transaction, so a failed insert leaves no effect. The cleanup statements
(`DELETE FROM`, `DROP TABLE`) that strict mode issues are modelled as
effective; their return values are ignored by the source. -/

/-- One observable engine action a bulk load performs, in order. -/
inductive LoadAction where
  | createTable (ok : Bool)
  | insertRow (ok : Bool)
  | deleteAll
  | dropTable
deriving DecidableEq

/-- The insert loop of `from_df` (lines 594-599): `if not self.insert(...)
and strict:` issue DELETE + DROP and return `False`; otherwise keep going
and finally return `True` (line 601) regardless of individual outcomes. -/
def from_df_loop (strict : Bool) : List Bool → Bool × List LoadAction
  | [] => (true, [])
  | ok :: rest =>
    if !ok && strict then
      (false, [LoadAction.insertRow ok, LoadAction.deleteAll, LoadAction.dropTable])
    else
      let r := from_df_loop strict rest
      (r.1, LoadAction.insertRow ok :: r.2)

/-- `SQRL.from_df`: CREATE TABLE, abort with `False` if that fails, then the
insert loop. -/
def from_df (strict : Bool) (createOk : Bool) (insertResults : List Bool) :
    Bool × List LoadAction :=
  if !createOk then (false, [LoadAction.createTable false])
  else
    let r := from_df_loop strict insertResults
    (r.1, LoadAction.createTable true :: r.2)

/-- The insert loop of `create_table_from_json` (lines 660-663):
`success = success and self.insert(name, x)` — Python's `and`
short-circuits, so once `success` is false later rows are not inserted at
all; the final value of `success` is returned. -/
def create_table_from_json_loop (success : Bool) :
    List Bool → Bool × List LoadAction
  | [] => (success, [])
  | ok :: rest =>
    if success then
      let r := create_table_from_json_loop ok rest
      (r.1, LoadAction.insertRow ok :: r.2)
    else
      create_table_from_json_loop success rest

/-- `SQRL.create_table_from_json`, from the CREATE TABLE step on (file
reading and JSON parsing are external input): abort with `False` if
creation fails, else run the short-circuiting insert loop. -/
def create_table_from_json (createOk : Bool) (insertResults : List Bool) :
    Bool × List LoadAction :=
  if !createOk then (false, [LoadAction.createTable false])
  else
    let r := create_table_from_json_loop true insertResults
    (r.1, LoadAction.createTable true :: r.2)

/-- State of the target table: whether it exists, and its committed row
count. A failed insert has no effect (each `insert` runs in its own
transaction); `DELETE FROM` empties the table; `DROP TABLE` removes it. -/
structure TableState where
  present : Bool
  rowCount : Nat
deriving DecidableEq

def applyLoadAction (s : TableState) (a : LoadAction) : TableState :=
  match a with
  | LoadAction.createTable ok => if ok then { present := true, rowCount := 0 } else s
  | LoadAction.insertRow ok =>
    if ok && s.present then { s with rowCount := s.rowCount + 1 } else s
  | LoadAction.deleteAll => { s with rowCount := 0 }
  | LoadAction.dropTable => { s with present := false }

def runLoad (s : TableState) (acts : List LoadAction) : TableState :=
  acts.foldl applyLoadAction s

lemma from_df_loop_nonstrict (results : List Bool) :
    from_df_loop false results = (true, results.map LoadAction.insertRow) := by
  induction results with
  | nil => rfl
  | cons ok rest ih => simp [from_df_loop, ih]

lemma create_table_from_json_loop_false (results : List Bool) :
    create_table_from_json_loop false results = (false, []) := by
  induction results with
  | nil => rfl
  | cons ok rest ih => simp [create_table_from_json_loop, ih]

lemma create_table_from_json_loop_result (results : List Bool) :
    (create_table_from_json_loop true results).1 = results.all (fun x => x) := by
  induction results with
  | nil => rfl
  | cons ok rest ih =>
    cases ok
    · simp [create_table_from_json_loop, create_table_from_json_loop_false]
    · simpa [create_table_from_json_loop] using ih

lemma create_table_from_json_loop_no_cleanup (results : List Bool) (b : Bool)
    (a : LoadAction) (ha : a ∈ (create_table_from_json_loop b results).2) :
    ∃ ok, a = LoadAction.insertRow ok := by
  induction results generalizing b with
  | nil => simp [create_table_from_json_loop] at ha
  | cons ok rest ih =>
    cases b
    · rw [create_table_from_json_loop_false] at ha
      simp at ha
    · simp only [create_table_from_json_loop, if_true, List.mem_cons] at ha
      rcases ha with rfl | ha
      · exact ⟨ok, rfl⟩
      · exact ih ok ha

/-- C4 counterexample: a non-strict `from_df` whose single row insert fails
still returns `True`, while the logical AND of the insert outcomes is
`false`. -/
theorem from_df_nonstrict_not_and :
    (from_df false true [false]).1 = true ∧
    ([false].all (fun x => x)) = false ∧
    (true : Bool) ≠ false := by
  refine ⟨rfl, rfl, by decide⟩

/-- C4 amended: when table creation succeeds, non-strict `from_df` returns
`True` unconditionally — not the AND of the row outcomes — and performs no
cleanup; the JSON bulk loader `create_table_from_json` does return the AND
of the row-insert outcomes (short-circuiting, so rows after the first
failure are never attempted) and also performs no cleanup. -/
theorem bulk_load_nonstrict_flag (results : List Bool) :
    (from_df false true results).1 = true ∧
    LoadAction.deleteAll ∉ (from_df false true results).2 ∧
    LoadAction.dropTable ∉ (from_df false true results).2 ∧
    (create_table_from_json true results).1 = results.all (fun x => x) ∧
    LoadAction.deleteAll ∉ (create_table_from_json true results).2 ∧
    LoadAction.dropTable ∉ (create_table_from_json true results).2 := by
  have hdf : from_df false true results =
      (true, LoadAction.createTable true :: results.map LoadAction.insertRow) := by
    simp [from_df, from_df_loop_nonstrict]
  have hj2 : ∀ a ∈ (create_table_from_json true results).2,
      a = LoadAction.createTable true ∨ ∃ ok, a = LoadAction.insertRow ok := by
    intro a ha
    simp only [create_table_from_json, Bool.not_true, Bool.false_eq_true, if_false,
      List.mem_cons] at ha
    rcases ha with rfl | ha
    · exact Or.inl rfl
    · exact Or.inr (create_table_from_json_loop_no_cleanup results true a ha)
  refine ⟨by rw [hdf], ?_, ?_, ?_, ?_, ?_⟩
  · rw [hdf]
    simp
  · rw [hdf]
    simp
  · simp [create_table_from_json, create_table_from_json_loop_result]
  · intro hmem
    rcases hj2 _ hmem with h | ⟨ok, h⟩ <;> simp at h
  · intro hmem
    rcases hj2 _ hmem with h | ⟨ok, h⟩ <;> simp at h

lemma from_df_loop_strict_fail (pre post : List Bool) (s : TableState)
    (hs : s.present = true) :
    (from_df_loop true (pre ++ false :: post)).1 = false ∧
    runLoad s (from_df_loop true (pre ++ false :: post)).2 =
      { present := false, rowCount := 0 } := by
  induction pre generalizing s with
  | nil =>
    constructor
    · rfl
    · simp [runLoad, from_df_loop, applyLoadAction]
  | cons ok rest ih =>
    cases ok
    · constructor
      · rfl
      · simp [runLoad, from_df_loop, applyLoadAction]
    · have step : applyLoadAction s (LoadAction.insertRow true) =
          { present := s.present, rowCount := s.rowCount + 1 } := by
        simp [applyLoadAction, hs]
      have ihs := ih { present := s.present, rowCount := s.rowCount + 1 } (by simp [hs])
      constructor
      · simpa [from_df_loop] using ihs.1
      · simpa [from_df_loop, runLoad, step] using ihs.2

/-- C5: a strict `from_df` whose creation succeeded but where some row
insert fails returns `false`, and — starting from a store in which the
table does not exist — the emitted engine actions (create, the inserts up
to the failure, then DELETE FROM and DROP TABLE) leave the table absent
with no rows: the store ends exactly as it began. -/
theorem from_df_strict_rollback (pre post : List Bool) :
    (from_df true true (pre ++ false :: post)).1 = false ∧
    runLoad { present := false, rowCount := 0 }
        (from_df true true (pre ++ false :: post)).2 =
      { present := false, rowCount := 0 } := by
  have hloop := from_df_loop_strict_fail pre post
      { present := true, rowCount := 0 } rfl
  constructor
  · simpa [from_df] using hloop.1
  · have hstep : applyLoadAction { present := false, rowCount := 0 }
        (LoadAction.createTable true) = { present := true, rowCount := 0 } := rfl
    simpa [from_df, runLoad, hstep] using hloop.2

/-! ### Transactions (`SQRL.execute` lines 379-405, `SQRL.executemany`
lines 422-437, `SQRL.executescript` lines 407-420)

The connection is created with `isolation_level=None` (autocommit): sqlite3
never opens an implicit transaction, so a statement executed outside an
explicit `BEGIN TRANSACTION` commits immediately, and
`Connection.commit`/`Connection.rollback` only commit/discard work done
inside an explicitly opened transaction. The state machine tracks committed
effects, effects pending inside an open transaction, and whether an
explicit transaction is open; a statement's engine outcome is an oracle
(`some eff` = success touching `eff` rows, `none` = `sqlite3.Error`; the
erroring statement itself has no effect, as single SQLite statements are
atomic). -/

structure ConnState where
  committedRows : Nat
  pendingRows : Nat
  inTx : Bool
deriving DecidableEq

/-- `cur.execute("BEGIN TRANSACTION;")`. -/
def beginTx (s : ConnState) : ConnState := { s with inTx := true }

/-- Run one successful statement: inside an explicit transaction its effect
is pending, otherwise it autocommits. -/
def applyStmt (s : ConnState) (eff : Nat) : ConnState :=
  if s.inTx then { s with pendingRows := s.pendingRows + eff }
  else { s with committedRows := s.committedRows + eff }

/-- `con.commit()`: makes pending work durable and closes the transaction. -/
def commitConn (s : ConnState) : ConnState :=
  { committedRows := s.committedRows + s.pendingRows, pendingRows := 0, inTx := false }

/-- `con.rollback()`: discards pending work; a no-op when no transaction is
open. -/
def rollbackConn (s : ConnState) : ConnState :=
  { s with pendingRows := 0, inTx := false }

/-- Engine outcome of the single statement `SQRL.execute` runs. -/
inductive ExecOutcome where
  | ok (eff : Nat) (rows : List (List Value))
  | err
deriving DecidableEq

/-- The Python value `SQRL.execute` returns: `True`, `False`, or the
`fetchall()` rows when `has_return` was requested. -/
inductive ExecResult where
  | succeeded
  | failed
  | returned (rows : List (List Value))
deriving DecidableEq

/-- `SQRL.execute`: optional `BEGIN TRANSACTION`, the statement, then
`fetchall()` (if `has_return`) and `con.commit()`; on `sqlite3.Error`,
`con.rollback()` and `False`. -/
def execute (as_transaction has_return : Bool) (oc : ExecOutcome)
    (s : ConnState) : ExecResult × ConnState :=
  let s0 := if as_transaction then beginTx s else s
  match oc with
  | ExecOutcome.ok eff rows =>
    (if has_return then ExecResult.returned rows else ExecResult.succeeded,
      commitConn (applyStmt s0 eff))
  | ExecOutcome.err => (ExecResult.failed, rollbackConn s0)

/-- `cur.executemany` / the statement loop of `cur.executescript`: run the
parameter sets (statements) in order, stopping at the first
`sqlite3.Error`. No `BEGIN` is ever issued. -/
def runMany : ConnState → List (Option Nat) → Bool × ConnState
  | s, [] => (true, s)
  | s, Option.some eff :: rest => runMany (applyStmt s eff) rest
  | s, Option.none :: _ => (false, s)

/-- `SQRL.executemany`: the batch, then `con.commit()`; on error
`con.rollback()` and `False`. -/
def executemany (paramOutcomes : List (Option Nat)) (s : ConnState) :
    Bool × ConnState :=
  let r := runMany s paramOutcomes
  if r.1 then (true, commitConn r.2) else (false, rollbackConn r.2)

/-- `SQRL.executescript`: identical control flow on a list of script
statements. -/
def executescript (stmtOutcomes : List (Option Nat)) (s : ConnState) :
    Bool × ConnState :=
  let r := runMany s stmtOutcomes
  if r.1 then (true, commitConn r.2) else (false, rollbackConn r.2)

lemma runMany_all_ok (effs : List Nat) (s : ConnState) (hs : s.inTx = false) :
    runMany s (effs.map Option.some) =
      (true, { s with committedRows := s.committedRows + effs.sum }) := by
  induction effs generalizing s with
  | nil => simp [runMany]
  | cons e rest ih =>
    have hstep : applyStmt s e = { s with committedRows := s.committedRows + e } := by
      simp [applyStmt, hs]
    have h1 : runMany s ((e :: rest).map Option.some) =
        runMany (applyStmt s e) (rest.map Option.some) := rfl
    rw [h1, hstep, ih { s with committedRows := s.committedRows + e } hs]
    simp [Nat.add_assoc]

lemma runMany_fail (pre : List Nat) (post : List (Option Nat)) (s : ConnState)
    (hs : s.inTx = false) :
    runMany s (pre.map Option.some ++ Option.none :: post) =
      (false, { s with committedRows := s.committedRows + pre.sum }) := by
  induction pre generalizing s with
  | nil => simp [runMany]
  | cons e rest ih =>
    have hstep : applyStmt s e = { s with committedRows := s.committedRows + e } := by
      simp [applyStmt, hs]
    have h1 : runMany s ((e :: rest).map Option.some ++ Option.none :: post) =
        runMany (applyStmt s e) (rest.map Option.some ++ Option.none :: post) := rfl
    rw [h1, hstep, ih { s with committedRows := s.committedRows + e } hs]
    simp [Nat.add_assoc]

/-- C6 counterexample: an `executemany` batch of two parameter sets whose
second fails returns `False` — but the first set's effect is already
committed (the connection is in autocommit and `executemany` opens no
transaction), so a partial effect of the batch survives, against the
claim's "no partial effect is ever committed". -/
theorem executemany_partial_commit :
    (executemany [Option.some 1, Option.none] ⟨0, 0, false⟩).1 = false ∧
    ((executemany [Option.some 1, Option.none] ⟨0, 0, false⟩).2).committedRows = 1 ∧
    (1 : Nat) ≠ 0 := by
  refine ⟨rfl, rfl, by decide⟩

/-- C6 amended: a statement run with `as_transaction=true` is atomic — on
engine failure the call reports `False`, rolls back, and the connection
state is exactly what it was, and on success it reports `True` (or the
returned rows); `executemany`/`executescript`, however, open no
transaction: they report `False` on a mid-batch failure, but the parameter
sets (statements) executed before the failure are already autocommitted
and survive — only the whole batch result and the final commit/rollback
bookkeeping are uniform. -/
theorem transaction_and_batch_semantics (n eff : Nat) (has_return as_tx : Bool)
    (rows : List (List Value)) (effs pre : List Nat) (post : List (Option Nat)) :
    (execute true has_return ExecOutcome.err ⟨n, 0, false⟩).1 = ExecResult.failed ∧
    (execute true has_return ExecOutcome.err ⟨n, 0, false⟩).2 = ⟨n, 0, false⟩ ∧
    (execute as_tx false (ExecOutcome.ok eff rows) ⟨n, 0, false⟩).1 =
      ExecResult.succeeded ∧
    (execute as_tx true (ExecOutcome.ok eff rows) ⟨n, 0, false⟩).1 =
      ExecResult.returned rows ∧
    executemany (effs.map Option.some) ⟨n, 0, false⟩ =
      (true, ⟨n + effs.sum, 0, false⟩) ∧
    executemany (pre.map Option.some ++ Option.none :: post) ⟨n, 0, false⟩ =
      (false, ⟨n + pre.sum, 0, false⟩) ∧
    executescript (pre.map Option.some ++ Option.none :: post) ⟨n, 0, false⟩ =
      (false, ⟨n + pre.sum, 0, false⟩) := by
  refine ⟨rfl, rfl, by cases as_tx <;> rfl, by cases as_tx <;> rfl, ?_, ?_, ?_⟩
  · rw [executemany, runMany_all_ok effs ⟨n, 0, false⟩ rfl]
    rfl
  · rw [executemany, runMany_fail pre post ⟨n, 0, false⟩ rfl]
    rfl
  · rw [executescript, runMany_fail pre post ⟨n, 0, false⟩ rfl]
    rfl

/-! ### The vector-capability guard (`SQRL.__init__` lines 26-86,
`k_nearest_embeddings` lines 700-729, `add_embedding` lines 665-678,
`create_embedding_db` lines 680-698) -/

/-- The capability-relevant state `__init__` leaves behind. -/
structure SQRLState where
  vectors_enabled : Bool
  has_embed_function : Bool
deriving DecidableEq

/-- `SQRL.__init__`: line 72 executes `self._vectors_enabled = True`
unconditionally — it sits after, not inside, the `if enable_vectors:` block
(lines 66-71), so the flag is `True` no matter what the caller passed;
`embedding_fn` is stored as given. -/
def sqrl_init (enable_vectors : Bool) (embedding_fn_given : Bool) : SQRLState :=
  { vectors_enabled := true, has_embed_function := embedding_fn_given }

/-- How a vector operation terminates before reaching the engine:
the designed `RuntimeError("vectors not enabled.")` guard, a `TypeError`
from calling a `None` embedding function, or proceeding to the engine
query (which then fails as an ordinary engine error when the extension was
never loaded). -/
inductive VecOutcome where
  | capabilityError
  | embedCallError
  | engineQuery
deriving DecidableEq

/-- `SQRL.k_nearest_embeddings`: the guard at lines 710-711, then the call
`self.embed_function(query)`, then the engine query. -/
def k_nearest_embeddings (st : SQRLState) : VecOutcome :=
  if !st.vectors_enabled then VecOutcome.capabilityError
  else if !st.has_embed_function then VecOutcome.embedCallError
  else VecOutcome.engineQuery

/-- `SQRL.add_embedding`: the guard at lines 673-674, then
`self.embed_function(text)`, then the INSERT. -/
def add_embedding (st : SQRLState) : VecOutcome :=
  if !st.vectors_enabled then VecOutcome.capabilityError
  else if !st.has_embed_function then VecOutcome.embedCallError
  else VecOutcome.engineQuery

/-- `SQRL.create_embedding_db`: the guard at lines 688-689, then the
CREATE VIRTUAL TABLE (no embedding-function call). -/
def create_embedding_db (st : SQRLState) : VecOutcome :=
  if !st.vectors_enabled then VecOutcome.capabilityError
  else VecOutcome.engineQuery

/-- C1: after constructing with `enable_vectors=False` (and an embedding
function configured), every vector operation proceeds straight to the
engine query — the `RuntimeError` capability guard can never fire, because
`__init__` sets `_vectors_enabled = True` unconditionally. The failure the
caller eventually sees is an ordinary engine/query failure, not the
distinct capability error the specification requires. -/
theorem vector_guard_never_fires :
    (sqrl_init false true).vectors_enabled = true ∧
    k_nearest_embeddings (sqrl_init false true) = VecOutcome.engineQuery ∧
    add_embedding (sqrl_init false true) = VecOutcome.engineQuery ∧
    create_embedding_db (sqrl_init false true) = VecOutcome.engineQuery ∧
    VecOutcome.engineQuery ≠ VecOutcome.capabilityError := by
  refine ⟨rfl, rfl, rfl, rfl, by decide⟩

end Sqrl
